import Mathlib

/-!
Shallow embedding of the AutoFixer IDE backend (src/App.py), a Flask service
that stores "projects" as directories under a fixed root, each holding a JSON
descriptor `project.json` plus the project's files and folders.

The filesystem is modelled as an explicit state: a list of existing directory
paths and an association list from file paths to contents.  Machine-level
details that no handler observes (permissions, file timestamps, symlinks)
are not modelled; paths are compared literally, which matches POSIX resolution
for canonical paths (no `.` or `..` segments, no double slashes, no symlinks).
Python exceptions are modelled with `Except`: every operation that can raise
returns `Except String _`, and each HTTP handler catches errors at its
boundary and converts them to a 500 response, exactly as the `try/except`
blocks in App.py do.
-/

namespace AutoFixer

/-- A file entry of a project descriptor, as built by `create_project` and
`create_file` in App.py. -/
structure FileInfo where
  name : String
  path : String
  content : String
  type : String
deriving DecidableEq, Repr

/-- A project descriptor, the dict saved by `save_project_metadata`. -/
structure Metadata where
  id : String
  name : String
  template : String
  files : List FileInfo
  folders : List String
  createdAt : String
deriving DecidableEq, Repr

/-- Content of a regular file in the model.  `text` is ordinary text written
by the file handlers; `jsonMeta` is a project descriptor as serialized by
`json.dump` in `save_project_metadata`; `invalid` is a byte string that is
not valid JSON.  `json.load` succeeds exactly on `jsonMeta` contents here:
the handlers under study never parse handler-written plain text as a
descriptor, so `text` is treated as non-JSON when a descriptor is loaded. -/
inductive Content where
  | text (s : String)
  | jsonMeta (m : Metadata)
  | invalid (raw : String)
deriving DecidableEq, Repr

/-- What `f.read()` yields for a file of the given content.  The exact JSON
rendering of a descriptor is never inspected by any handler, so it is left
as the empty string. -/
def Content.readText : Content → String
  | .text s => s
  | .jsonMeta _ => ""
  | .invalid raw => raw

/-- The filesystem state: the set of existing directories and the existing
regular files with their contents (association list keyed by path; lookups
take the first match and writes remove all previous bindings of the key). -/
structure FS where
  dirs : List String
  files : List (String × Content)
deriving DecidableEq, Repr

/-- `PROJECTS_DIR = "projects"` in App.py. -/
def PROJECTS_DIR : String := "projects"

/-- Whether a path is absolute (starts with a slash). -/
def isAbs (p : String) : Bool :=
  p.toList.head? = some '/'

/-- `os.path.join(a, b)`: if the second component is absolute it replaces the
first, otherwise the components are joined with a separator. -/
def pathJoin (a b : String) : String :=
  if isAbs b then b else a ++ "/" ++ b

/-- `get_project_path` in App.py. -/
def get_project_path (project_id : String) : String :=
  pathJoin PROJECTS_DIR project_id

/-- The path of a project's descriptor file,
`os.path.join(project_path, "project.json")`. -/
def descriptorPath (project_id : String) : String :=
  pathJoin (get_project_path project_id) "project.json"

/-- `os.path.dirname`: the part before the last slash, with trailing slashes
stripped (kept when the result would otherwise be empty, as for "/x"). -/
def dirname (p : String) : String :=
  let cs := p.toList
  if cs.contains '/' then
    let pre := (cs.reverse.dropWhile (fun ch => ch ≠ '/')).reverse
    let stripped := (pre.reverse.dropWhile (fun ch => ch = '/')).reverse
    if stripped.isEmpty then String.mk pre else String.mk stripped
  else ""

/-- `os.path.basename`: the part after the last slash. -/
def basename (p : String) : String :=
  String.mk ((p.toList.reverse.takeWhile (fun ch => ch ≠ '/')).reverse)

/-- Python's `s.split(c)` for a single-character separator, on the character
list of the string. -/
def splitOnChar (c : Char) : List Char → List (List Char)
  | [] => [[]]
  | x :: xs =>
    match splitOnChar c xs with
    | [] => [[]]
    | r :: rs => if x = c then [] :: r :: rs else (x :: r) :: rs

/-- The list of path components of `p` (split on slashes). -/
def pathSegs (p : String) : List String :=
  (splitOnChar '/' p.toList).map List.asString

/-- Accumulate the prefixes of a path that end at each slash, plus the whole
path; `acc` is the reversed prefix read so far. -/
def pathStepsAux (acc : List Char) : List Char → List (List Char)
  | [] => [acc.reverse]
  | c :: cs =>
    if c = '/' then acc.reverse :: pathStepsAux (c :: acc) cs
    else pathStepsAux (c :: acc) cs

/-- All the directories `os.makedirs p` touches: every prefix of `p` up to a
slash, in path order, ending with `p` itself. -/
def pathSteps (p : String) : List String :=
  (pathStepsAux [] p.toList).map List.asString

/-- First binding of a key in an association list of paths. -/
def lookupKey : List (String × Content) → String → Option Content
  | [], _ => none
  | e :: l, p => if e.1 = p then some e.2 else lookupKey l p

/-- Drop every binding of a key from an association list of paths. -/
def eraseKeyAll : List (String × Content) → String → List (String × Content)
  | [], _ => []
  | e :: l, p => if e.1 = p then eraseKeyAll l p else e :: eraseKeyAll l p

namespace FS

/-- First binding of `p` among the regular files. -/
def lookupFile (fs : FS) (p : String) : Option Content :=
  lookupKey fs.files p

def isFile (fs : FS) (p : String) : Bool :=
  (fs.lookupFile p).isSome

def isDir (fs : FS) (p : String) : Bool :=
  fs.dirs.contains p

/-- `os.path.exists`. -/
def pathExists (fs : FS) (p : String) : Bool :=
  fs.isDir p || fs.isFile p

/-- Set the content of file `p`, dropping any previous binding. -/
def writeFile (fs : FS) (p : String) (c : Content) : FS :=
  { fs with files := (p, c) :: eraseKeyAll fs.files p }

/-- `os.remove` on a path known to be a regular file. -/
def removeFile (fs : FS) (p : String) : FS :=
  { fs with files := eraseKeyAll fs.files p }

/-- `os.makedirs(p, exist_ok=True)`: raises when `p` is empty or some step of
the path exists as a regular file; otherwise creates every missing step. -/
def makedirs (fs : FS) (p : String) : Except String FS :=
  if p = "" then .error "FileNotFoundError"
  else if (pathSteps p).any (fun q => fs.isFile q) then .error "FileExistsError"
  else .ok { fs with
    dirs := fs.dirs ++ (pathSteps p).filter (fun q => ¬ fs.dirs.contains q) }

/-- `open(p, 'w')` followed by a full write: fails on a directory, truncates
an existing file, creates a missing file only under an existing directory. -/
def writeContent (fs : FS) (p : String) (c : Content) : Except String FS :=
  if fs.isDir p then .error "IsADirectoryError"
  else if fs.isFile p then .ok (fs.writeFile p c)
  else if fs.isDir (dirname p) then .ok (fs.writeFile p c)
  else .error "FileNotFoundError"

def writeText (fs : FS) (p : String) (s : String) : Except String FS :=
  fs.writeContent p (.text s)

/-- `open(p, 'r')` followed by `f.read()`. -/
def readTextF (fs : FS) (p : String) : Except String String :=
  if fs.isDir p then .error "IsADirectoryError"
  else match fs.lookupFile p with
    | some c => .ok c.readText
    | none => .error "FileNotFoundError"

/-- `os.listdir root`: names of the entries (directories and regular files)
directly inside `root`. -/
def listdir (fs : FS) (root : String) : List String :=
  ((fs.dirs.filter (fun d => dirname d = root)).map basename) ++
  (((fs.files.map (fun e => e.1)).filter (fun f => dirname f = root)).map basename)

end FS

/-- `save_project_metadata` in App.py: serializes the descriptor to
`<project>/project.json`, overwriting it entirely. -/
def save_project_metadata (fs : FS) (project_id : String) (m : Metadata) :
    Except String FS :=
  fs.writeContent (descriptorPath project_id) (.jsonMeta m)

/-- `load_project_metadata` in App.py: `None` when the descriptor file does
not exist, the parsed descriptor when it is valid JSON, and a raised
exception when the path is a directory or the bytes are not valid JSON. -/
def load_project_metadata (fs : FS) (project_id : String) :
    Except String (Option Metadata) :=
  if fs.isDir (descriptorPath project_id) then .error "IsADirectoryError"
  else match fs.lookupFile (descriptorPath project_id) with
    | none => .ok none
    | some (.jsonMeta m) => .ok (some m)
    | some _ => .error "JSONDecodeError"

/-- The JSON envelope of a handler: `ok status value` for a success response
and `err status message` for a `success: false` response. -/
inductive Result (α : Type) where
  | ok (status : Nat) (val : α)
  | err (status : Nat) (msg : String)
deriving DecidableEq, Repr

/-- Python truthiness of an optional request field: `data.get(k)` is falsy
when the key is absent or its value is the empty string. -/
def truthyStr : Option String → Bool
  | none => false
  | some s => s ≠ ""

/-- `file_name.split('.')[-1] if '.' in file_name else 'txt'` in
`create_file`. -/
def fileTypeOf (file_name : String) : String :=
  if file_name.toList.contains '.' then
    ((splitOnChar '.' file_name.toList).getLastD []).asString
  else "txt"

/-- The loop of `update_file`: set the content of the first descriptor entry
whose path equals `p`, then `break`. -/
def updateFirstContent : List FileInfo → String → String → List FileInfo
  | [], _, _ => []
  | fi :: rest, p, c =>
    if fi.path = p then { fi with content := c } :: rest
    else fi :: updateFirstContent rest p c

/-- The loop body of `get_projects`: walk the directory-listing names, skip
entries that are not directories or have no descriptor, propagate a raised
exception, and collect the loaded descriptors in order. -/
def gatherProjects (fs : FS) : List String → Except String (List Metadata)
  | [] => .ok []
  | n :: ns =>
    if fs.isDir (get_project_path n) then
      match load_project_metadata fs n with
      | .error e => .error e
      | .ok none => gatherProjects fs ns
      | .ok (some m) =>
        match gatherProjects fs ns with
        | .error e => .error e
        | .ok l => .ok (m :: l)
    else gatherProjects fs ns

/-- `GET /api/projects` (`get_projects` in App.py). -/
def get_projects (fs : FS) : Result (List Metadata) :=
  if fs.pathExists PROJECTS_DIR then
    if fs.isDir PROJECTS_DIR then
      match gatherProjects fs (fs.listdir PROJECTS_DIR) with
      | .ok l => .ok 200 l
      | .error e => .err 500 e
    else .err 500 "NotADirectoryError"
  else .ok 200 []

/-- The template branch of `create_project`: scaffold the initial folders and
files for the chosen template inside the new project directory `pp`, and
report the resulting file entries and folder list (`folders` starts as
`['src']` and `files` as `[]` in App.py; `maven` extends the folder list). -/
def scaffoldTemplate (fs1 : FS) (pp : String) (tmpl : String) :
    Except String (FS × List FileInfo × List String) :=
  if tmpl = "basic" then
    match fs1.makedirs (pathJoin pp "src") with
    | .error e => .error e
    | .ok fs2 =>
      match fs2.writeText (pathJoin (pathJoin pp "src") "Main.java") "" with
      | .error e => .error e
      | .ok fs3 =>
        .ok (fs3, [⟨"Main.java", "src/Main.java", "", "java"⟩], ["src"])
  else if tmpl = "maven" then
    match fs1.makedirs (pathJoin pp "src/main/java") with
    | .error e => .error e
    | .ok fs2 =>
      match fs2.makedirs (pathJoin pp "src/test/java") with
      | .error e => .error e
      | .ok fs3 =>
        match fs3.writeText (pathJoin pp "pom.xml") "" with
        | .error e => .error e
        | .ok fs4 =>
          .ok (fs4, [⟨"pom.xml", "pom.xml", "", "xml"⟩],
            ["src", "src/main/java", "src/test/java"])
  else
    match fs1.makedirs (pathJoin pp "src") with
    | .error e => .error e
    | .ok fs2 => .ok (fs2, [], ["src"])

/-- `POST /api/projects` (`create_project` in App.py).  The current wall
clock enters as the parameters `nowMs` (milliseconds, used for the generated
identifier) and `nowIso` (ISO-8601 creation timestamp). -/
def create_project (fs : FS) (nowMs : Nat) (nowIso : String)
    (name template : Option String) : Result Metadata × FS :=
  let tmpl := template.getD "empty"
  if truthyStr name = false then (.err 400 "Project name is required", fs)
  else
    let project_id := toString nowMs
    match fs.makedirs (get_project_path project_id) with
    | .error e => (.err 500 e, fs)
    | .ok fs1 =>
      match scaffoldTemplate fs1 (get_project_path project_id) tmpl with
      | .error e => (.err 500 e, fs1)
      | .ok (fs2, files, folders) =>
        let m : Metadata :=
          ⟨project_id, name.getD "", tmpl, files, folders, nowIso⟩
        match save_project_metadata fs2 project_id m with
        | .error e => (.err 500 e, fs2)
        | .ok fs3 => (.ok 201 m, fs3)

/-- `GET /api/projects/<project_id>` (`get_project` in App.py). -/
def get_project (fs : FS) (project_id : String) : Result Metadata :=
  match load_project_metadata fs project_id with
  | .error e => .err 500 e
  | .ok none => .err 404 "Project not found"
  | .ok (some m) => .ok 200 m

/-- `POST /api/projects/<project_id>/files` (`create_file` in App.py). -/
def create_file (fs : FS) (project_id : String)
    (name path content : Option String) : Result FileInfo × FS :=
  let file_content := content.getD ""
  if truthyStr name = false ∨ truthyStr path = false then
    (.err 400 "File name and path are required", fs)
  else
    match load_project_metadata fs project_id with
    | .error e => (.err 500 e, fs)
    | .ok none => (.err 404 "Project not found", fs)
    | .ok (some m) =>
      let full := pathJoin (get_project_path project_id) (path.getD "")
      match fs.makedirs (dirname full) with
      | .error e => (.err 500 e, fs)
      | .ok fs1 =>
        match fs1.writeText full file_content with
        | .error e => (.err 500 e, fs1)
        | .ok fs2 =>
          let file_info : FileInfo :=
            ⟨name.getD "", path.getD "", file_content, fileTypeOf (name.getD "")⟩
          match save_project_metadata fs2 project_id
              { m with files := m.files ++ [file_info] } with
          | .error e => (.err 500 e, fs2)
          | .ok fs3 => (.ok 201 file_info, fs3)

/-- `GET /api/projects/<project_id>/files/<path>` (`get_file` in App.py). -/
def get_file (fs : FS) (project_id file_path : String) : Result String :=
  let full := pathJoin (get_project_path project_id) file_path
  if fs.pathExists full = false then .err 404 "File not found"
  else
    match fs.readTextF full with
    | .error e => .err 500 e
    | .ok s => .ok 200 s

/-- `PUT /api/projects/<project_id>/files/<path>` (`update_file` in App.py). -/
def update_file (fs : FS) (project_id file_path : String)
    (content : Option String) : Result String × FS :=
  let c := content.getD ""
  let full := pathJoin (get_project_path project_id) file_path
  if fs.pathExists full = false then (.err 404 "File not found", fs)
  else
    match fs.writeText full c with
    | .error e => (.err 500 e, fs)
    | .ok fs1 =>
      match load_project_metadata fs1 project_id with
      | .error e => (.err 500 e, fs1)
      | .ok none => (.ok 200 "File updated successfully", fs1)
      | .ok (some m) =>
        let m' := { m with files := updateFirstContent m.files file_path c }
        match save_project_metadata fs1 project_id m' with
        | .error e => (.err 500 e, fs1)
        | .ok fs2 => (.ok 200 "File updated successfully", fs2)

/-- `DELETE /api/projects/<project_id>/files/<path>` (`delete_file` in
App.py). -/
def delete_file (fs : FS) (project_id file_path : String) :
    Result String × FS :=
  let full := pathJoin (get_project_path project_id) file_path
  if fs.pathExists full = false then (.err 404 "File not found", fs)
  else if fs.isDir full then (.err 500 "IsADirectoryError", fs)
  else
    let fs1 := fs.removeFile full
    match load_project_metadata fs1 project_id with
    | .error e => (.err 500 e, fs1)
    | .ok none => (.ok 200 "File deleted successfully", fs1)
    | .ok (some m) =>
      let m' := { m with files := m.files.filter (fun f => f.path ≠ file_path) }
      match save_project_metadata fs1 project_id m' with
      | .error e => (.err 500 e, fs1)
      | .ok fs2 => (.ok 200 "File deleted successfully", fs2)

/-- `POST /api/projects/<project_id>/folders` (`create_folder` in App.py). -/
def create_folder (fs : FS) (project_id : String) (name : Option String) :
    Result String × FS :=
  if truthyStr name = false then (.err 400 "Folder name is required", fs)
  else
    match load_project_metadata fs project_id with
    | .error e => (.err 500 e, fs)
    | .ok none => (.err 404 "Project not found", fs)
    | .ok (some m) =>
      let folder_name := name.getD ""
      match fs.makedirs (pathJoin (get_project_path project_id) folder_name) with
      | .error e => (.err 500 e, fs)
      | .ok fs1 =>
        if m.folders.contains folder_name then (.ok 201 folder_name, fs1)
        else
          match save_project_metadata fs1 project_id
              { m with folders := m.folders ++ [folder_name] } with
          | .error e => (.err 500 e, fs1)
          | .ok fs2 => (.ok 201 folder_name, fs2)

/-- `POST /api/projects/<project_id>/run` (`run_project` in App.py): the
placeholder run endpoint. -/
def run_project (fs : FS) (project_id : String) : Result String :=
  match load_project_metadata fs project_id with
  | .error e => .err 500 e
  | .ok none => .err 404 "Project not found"
  | .ok (some m) =>
    .ok 200 ("Running project: " ++ m.name ++ "...\nCompilation started...\n")

/-! ### Absence of a project, canonical request paths -/

/-- The project does not exist: neither its directory nor anything beneath it
(in particular no descriptor) is present.  In a well-formed filesystem
nothing can exist below a missing directory, so the quantified clauses are
exactly the claim's "no directory and no descriptor". -/
def project_absent (fs : FS) (project_id : String) : Prop :=
  fs.isDir (get_project_path project_id) = false ∧
  fs.lookupFile (get_project_path project_id) = none ∧
  (∀ t : String, fs.isDir (get_project_path project_id ++ "/" ++ t) = false) ∧
  (∀ t : String, fs.lookupFile (get_project_path project_id ++ "/" ++ t) = none)

/-- A canonical project-relative path: not absolute and with no empty, `.`,
or `..` segment.  On such paths (and filesystem states whose stored paths
are canonical) the literal path comparison of the model coincides with the
operating system's path resolution. -/
def canonicalRel (p : String) : Prop :=
  isAbs p = false ∧ ∀ s ∈ pathSegs p, s ≠ "" ∧ s ≠ "." ∧ s ≠ ".."

/-! ### Helper lemmas -/

theorem pathJoin_rel (a b : String) (h : isAbs b = false) :
    pathJoin a b = a ++ "/" ++ b := by
  simp [pathJoin, h]

theorem descriptorPath_eq (project_id : String) :
    descriptorPath project_id =
      get_project_path project_id ++ "/" ++ "project.json" := by
  unfold descriptorPath
  exact pathJoin_rel _ _ (by decide)

theorem lookupKey_eraseKeyAll_ne (l : List (String × Content)) (p q : String)
    (hq : q ≠ p) : lookupKey (eraseKeyAll l p) q = lookupKey l q := by
  have hpq : p ≠ q := fun h => hq h.symm
  induction l with
  | nil => rfl
  | cons e l ih =>
    by_cases he : e.1 = p
    · simp [eraseKeyAll, lookupKey, he, hpq, ih]
    · by_cases hqe : e.1 = q
      · simp [eraseKeyAll, lookupKey, he, hqe, hq]
      · simp [eraseKeyAll, lookupKey, he, hqe, ih]

theorem lookupKey_eraseKeyAll_self (l : List (String × Content)) (p : String) :
    lookupKey (eraseKeyAll l p) p = none := by
  induction l with
  | nil => rfl
  | cons e l ih =>
    by_cases he : e.1 = p
    · simp [eraseKeyAll, he, ih]
    · simp [eraseKeyAll, lookupKey, he, ih]

theorem lookup_writeFile_self (fs : FS) (p : String) (c : Content) :
    (fs.writeFile p c).lookupFile p = some c := by
  simp [FS.writeFile, FS.lookupFile, lookupKey]

theorem lookup_writeFile_ne (fs : FS) (p q : String) (c : Content)
    (h : q ≠ p) : (fs.writeFile p c).lookupFile q = fs.lookupFile q := by
  have hpq : p ≠ q := fun hc => h hc.symm
  simp [FS.writeFile, FS.lookupFile, lookupKey, hpq,
    lookupKey_eraseKeyAll_ne _ _ _ h]

theorem lookup_removeFile_self (fs : FS) (p : String) :
    (fs.removeFile p).lookupFile p = none := by
  simp [FS.removeFile, FS.lookupFile, lookupKey_eraseKeyAll_self]

theorem lookup_removeFile_ne (fs : FS) (p q : String) (h : q ≠ p) :
    (fs.removeFile p).lookupFile q = fs.lookupFile q := by
  simp [FS.removeFile, FS.lookupFile, lookupKey_eraseKeyAll_ne _ _ _ h]

theorem dirs_writeFile (fs : FS) (p : String) (c : Content) :
    (fs.writeFile p c).dirs = fs.dirs := rfl

theorem dirs_removeFile (fs : FS) (p : String) :
    (fs.removeFile p).dirs = fs.dirs := rfl

theorem makedirs_ok_files (fs fs1 : FS) (p : String)
    (h : fs.makedirs p = .ok fs1) : fs1.files = fs.files := by
  unfold FS.makedirs at h
  split at h
  · exact absurd h (by simp)
  · split at h
    · exact absurd h (by simp)
    · cases h; rfl

/-- Inversion of a successful `save_project_metadata`: the new state is the
old one with the descriptor file overwritten, and the descriptor path was
not a directory. -/
theorem save_ok_inv (fs fs' : FS) (project_id : String) (m : Metadata)
    (h : save_project_metadata fs project_id m = .ok fs') :
    fs' = fs.writeFile (descriptorPath project_id) (.jsonMeta m) ∧
    fs.isDir (descriptorPath project_id) = false := by
  unfold save_project_metadata FS.writeContent at h
  split at h
  · exact absurd h (by simp)
  · next hdir =>
    have hd : fs.isDir (descriptorPath project_id) = false := by
      simpa using hdir
    split at h
    · refine ⟨?_, hd⟩; cases h; rfl
    · split at h
      · refine ⟨?_, hd⟩; cases h; rfl
      · exact absurd h (by simp)

/-- After a successful save, loading the descriptor gives back exactly the
saved metadata. -/
theorem load_after_save (fs fs' : FS) (project_id : String) (m : Metadata)
    (h : save_project_metadata fs project_id m = .ok fs') :
    load_project_metadata fs' project_id = .ok (some m) := by
  obtain ⟨rfl, hd⟩ := save_ok_inv fs fs' project_id m h
  unfold load_project_metadata
  rw [show (fs.writeFile (descriptorPath project_id) (.jsonMeta m)).isDir
        (descriptorPath project_id) = false from hd]
  rw [lookup_writeFile_self]
  simp

/-- Inversion of a successful `open(p,'w')`-style write. -/
theorem writeContent_ok_inv (fs fs1 : FS) (p : String) (c : Content)
    (h : fs.writeContent p c = .ok fs1) :
    fs1 = fs.writeFile p c ∧ fs.isDir p = false := by
  unfold FS.writeContent at h
  split at h
  · exact absurd h (by simp)
  · next hdir =>
    have hd : fs.isDir p = false := by simpa using hdir
    split at h
    · refine ⟨?_, hd⟩; cases h; rfl
    · split at h
      · refine ⟨?_, hd⟩; cases h; rfl
      · exact absurd h (by simp)

/-- Inversion of `load_project_metadata` returning absence. -/
theorem load_none_inv (fs : FS) (project_id : String)
    (h : load_project_metadata fs project_id = .ok none) :
    fs.lookupFile (descriptorPath project_id) = none := by
  unfold load_project_metadata at h
  split at h
  · exact absurd h (by simp)
  · split at h
    · next heq => exact heq
    · exact absurd h (by simp)
    · exact absurd h (by simp)

theorem lookupFile_congr_files (fs fs1 : FS) (p : String)
    (h : fs1.files = fs.files) : fs1.lookupFile p = fs.lookupFile p := by
  simp [FS.lookupFile, h]

/-- Inversion of `load_project_metadata` returning a descriptor. -/
theorem load_some_inv (fs : FS) (project_id : String) (m : Metadata)
    (h : load_project_metadata fs project_id = .ok (some m)) :
    fs.isDir (descriptorPath project_id) = false ∧
    fs.lookupFile (descriptorPath project_id) = some (.jsonMeta m) := by
  unfold load_project_metadata at h
  split at h
  · exact absurd h (by simp)
  · next hdir =>
    refine ⟨by simpa using hdir, ?_⟩
    split at h
    · exact absurd h (by simp)
    · next heq => cases h; exact heq
    · exact absurd h (by simp)

/-! ### Concrete fixtures used by witnesses -/

/-- A plain existing project with an empty file list. -/
def demoMeta : Metadata := ⟨"p1", "Demo", "empty", [], ["src"], "2026-01-01"⟩

/-- A state holding the project `p1` described by `demoMeta`. -/
def demoFS : FS :=
  ⟨["projects", "projects/p1", "projects/p1/src"],
   [("projects/p1/project.json", .jsonMeta demoMeta)]⟩

/-- A descriptor tracking two entries with the same path `src/a.txt`. -/
def dupMeta : Metadata :=
  ⟨"p1", "Demo", "empty",
   [⟨"a.txt", "src/a.txt", "hello", "txt"⟩, ⟨"dup", "src/a.txt", "x", "txt"⟩],
   ["src"], "2026-01-01"⟩

/-- A state holding the project `p1` of `dupMeta` plus the tracked file on
disk. -/
def dupFS : FS :=
  ⟨["projects", "projects/p1", "projects/p1/src"],
   [("projects/p1/project.json", .jsonMeta dupMeta),
    ("projects/p1/src/a.txt", .text "hello")]⟩

/-- A state where project `p1` has an on-disk file that its descriptor does
not track. -/
def untrackedFS : FS :=
  ⟨["projects", "projects/p1", "projects/p1/src"],
   [("projects/p1/project.json", .jsonMeta demoMeta),
    ("projects/p1/src/b.txt", .text "b")]⟩

/-- A directory holding a file but no descriptor at all. -/
def orphanFS : FS :=
  ⟨["projects", "projects/p2"], [("projects/p2/notes.txt", .text "n")]⟩

/-- A corrupted state: the descriptor of project `bad` is not valid JSON. -/
def corruptFS : FS :=
  ⟨["projects", "projects/bad"],
   [("projects/bad/project.json", .invalid "notjson")]⟩

/-- A root with one complete project (`p1`) and one stale directory with no
descriptor (`stale`). -/
def listFS : FS :=
  ⟨["projects", "projects/p1", "projects/stale"],
   [("projects/p1/project.json", .jsonMeta demoMeta)]⟩

/-! ### C5 -/

/-- Claim C5: creating a file with an empty or absent name or path fails with
the ValidationError response (status 400) and performs no disk write and no
metadata change — the returned state is the input state. -/
theorem create_file_validation_no_write (fs : FS) (project_id : String)
    (name path content : Option String)
    (h : truthyStr name = false ∨ truthyStr path = false) :
    create_file fs project_id name path content =
      (.err 400 "File name and path are required", fs) := by
  rcases h with h | h <;> simp [create_file, h]

/-- Witness for C5 at an empty file name. -/
theorem create_file_validation_no_write_witness :
    create_file demoFS "p1" (some "") (some "src/a.txt") (some "hi") =
      (.err 400 "File name and path are required", demoFS) :=
  create_file_validation_no_write demoFS "p1" (some "") (some "src/a.txt")
    (some "hi") (Or.inl (by decide))

/-! ### C9 -/

/-- Claim C9: the run endpoint fails with NotFoundError (404) whenever the
project's descriptor is absent, and returns the canned output with status
200 for an existing project. -/
theorem run_project_stub_behavior :
    (∀ (fs : FS) (project_id : String),
      fs.isDir (descriptorPath project_id) = false →
      fs.lookupFile (descriptorPath project_id) = none →
      run_project fs project_id = .err 404 "Project not found") ∧
    (∀ (fs : FS) (project_id : String) (m : Metadata),
      fs.isDir (descriptorPath project_id) = false →
      fs.lookupFile (descriptorPath project_id) = some (.jsonMeta m) →
      run_project fs project_id =
        .ok 200 ("Running project: " ++ m.name ++ "...\nCompilation started...\n")) := by
  constructor
  · intro fs project_id h1 h2
    simp [run_project, load_project_metadata, h1, h2]
  · intro fs project_id m h1 h2
    simp [run_project, load_project_metadata, h1, h2]

/-- Witness for C9: a missing project gives 404, an existing one the canned
output. -/
theorem run_project_stub_behavior_witness :
    run_project ⟨[], []⟩ "p1" = .err 404 "Project not found" ∧
    run_project demoFS "p1" =
      .ok 200 "Running project: Demo...\nCompilation started...\n" :=
  ⟨run_project_stub_behavior.1 ⟨[], []⟩ "p1" rfl rfl,
   run_project_stub_behavior.2 demoFS "p1" demoMeta (by decide) (by decide)⟩

/-! ### C2 -/

/-- Counterexample to C2 as stated: with an absent project, `create_file`
with an empty name returns the 400 ValidationError response, not a 404
NotFoundError — field validation runs before the existence check. -/
theorem files_endpoint_absent_project_counterexample :
    project_absent ⟨[], []⟩ "p1" ∧
    create_file ⟨[], []⟩ "p1" (some "") (some "x.txt") none =
      (.err 400 "File name and path are required", (⟨[], []⟩ : FS)) :=
  ⟨⟨rfl, rfl, fun _ => rfl, fun _ => rfl⟩, by simp [create_file, truthyStr]⟩

/-- Claim C2 (amended): for requests that pass field validation and use a
canonical project-relative file path, every files/folders endpoint invoked
with an absent project returns the 404 NotFoundError response and leaves the
state unchanged. -/
theorem files_endpoints_absent_project_404 (fs : FS)
    (project_id file_path : String) (name path content : Option String)
    (hn : truthyStr name = true) (hp : truthyStr path = true)
    (habs : project_absent fs project_id) (hfp : canonicalRel file_path) :
    create_file fs project_id name path content =
      (.err 404 "Project not found", fs) ∧
    get_file fs project_id file_path = .err 404 "File not found" ∧
    update_file fs project_id file_path content =
      (.err 404 "File not found", fs) ∧
    delete_file fs project_id file_path = (.err 404 "File not found", fs) ∧
    create_folder fs project_id name = (.err 404 "Project not found", fs) := by
  obtain ⟨hd0, hf0, hdall, hfall⟩ := habs
  have hload : load_project_metadata fs project_id = .ok none := by
    unfold load_project_metadata
    rw [descriptorPath_eq]
    simp [hdall "project.json", hfall "project.json"]
  have hjoin : pathJoin (get_project_path project_id) file_path =
      get_project_path project_id ++ "/" ++ file_path :=
    pathJoin_rel _ _ hfp.1
  have hnoex : fs.pathExists
      (pathJoin (get_project_path project_id) file_path) = false := by
    rw [hjoin]
    simp [FS.pathExists, FS.isFile, hdall file_path, hfall file_path]
  refine ⟨?_, ?_, ?_, ?_, ?_⟩
  · simp [create_file, hn, hp, hload]
  · simp [get_file, hnoex]
  · simp [update_file, hnoex]
  · simp [delete_file, hnoex]
  · simp [create_folder, hn, hload]

/-- Witness for the amended C2 on the empty state. -/
theorem files_endpoints_absent_project_404_witness :
    create_file ⟨[], []⟩ "p1" (some "a.txt") (some "src/a.txt") none =
      (.err 404 "Project not found", (⟨[], []⟩ : FS)) ∧
    get_file ⟨[], []⟩ "p1" "src/a.txt" = .err 404 "File not found" ∧
    update_file ⟨[], []⟩ "p1" "src/a.txt" none =
      (.err 404 "File not found", (⟨[], []⟩ : FS)) ∧
    delete_file ⟨[], []⟩ "p1" "src/a.txt" =
      (.err 404 "File not found", (⟨[], []⟩ : FS)) ∧
    create_folder ⟨[], []⟩ "p1" (some "a.txt") =
      (.err 404 "Project not found", (⟨[], []⟩ : FS)) :=
  files_endpoints_absent_project_404 ⟨[], []⟩ "p1" "src/a.txt"
    (some "a.txt") (some "src/a.txt") none (by decide) (by decide)
    ⟨rfl, rfl, fun _ => rfl, fun _ => rfl⟩ ⟨by decide, by decide⟩

/-! ### C3 -/

/-- Counterexample to C3 as stated: a corrupted (non-JSON) descriptor does
not get silently skipped — the whole listing fails with a 500 response. -/
theorem get_projects_corrupt_descriptor_counterexample :
    corruptFS.lookupFile (descriptorPath "bad") = some (.invalid "notjson") ∧
    get_projects corruptFS = .err 500 "JSONDecodeError" :=
  ⟨by decide, by decide⟩

theorem gatherProjects_total (fs : FS) (ns : List String)
    (h : ∀ n ∈ ns, ∃ r, load_project_metadata fs n = .ok r) :
    ∃ l, gatherProjects fs ns = .ok l ∧
      ∀ m, m ∈ l ↔ ∃ n ∈ ns, fs.isDir (get_project_path n) = true ∧
        load_project_metadata fs n = .ok (some m) := by
  induction ns with
  | nil => exact ⟨[], rfl, by simp⟩
  | cons n ns ih =>
    obtain ⟨l, hl, hmem⟩ := ih (fun x hx => h x (List.mem_cons_of_mem _ hx))
    by_cases hdir : fs.isDir (get_project_path n) = true
    · obtain ⟨r, hr⟩ := h n (List.mem_cons_self _ _)
      cases r with
      | none =>
        refine ⟨l, by simp [gatherProjects, hdir, hr, hl], fun m => ?_⟩
        rw [hmem]
        simp only [List.mem_cons]
        constructor
        · rintro ⟨x, hx, hxd, hxl⟩
          exact ⟨x, Or.inr hx, hxd, hxl⟩
        · rintro ⟨x, rfl | hx, hxd, hxl⟩
          · rw [hr] at hxl; simp at hxl
          · exact ⟨x, hx, hxd, hxl⟩
      | some m0 =>
        refine ⟨m0 :: l, by simp [gatherProjects, hdir, hr, hl], fun m => ?_⟩
        simp only [List.mem_cons]
        constructor
        · rintro (rfl | hm)
          · exact ⟨n, Or.inl rfl, hdir, hr⟩
          · obtain ⟨x, hx, hxd, hxl⟩ := (hmem m).mp hm
            exact ⟨x, Or.inr hx, hxd, hxl⟩
        · rintro ⟨x, rfl | hx, hxd, hxl⟩
          · rw [hr] at hxl
            simp only [Except.ok.injEq, Option.some.injEq] at hxl
            exact Or.inl hxl.symm
          · exact Or.inr ((hmem m).mpr ⟨x, hx, hxd, hxl⟩)
    · have hdir' : fs.isDir (get_project_path n) = false := by
        cases hb : fs.isDir (get_project_path n)
        · rfl
        · exact absurd hb hdir
      refine ⟨l, by simp [gatherProjects, hdir', hl], fun m => ?_⟩
      rw [hmem]
      simp only [List.mem_cons]
      constructor
      · rintro ⟨x, hx, hxd, hxl⟩
        exact ⟨x, Or.inr hx, hxd, hxl⟩
      · rintro ⟨x, rfl | hx, hxd, hxl⟩
        · exact absurd hxd (by simp [hdir'])
        · exact ⟨x, hx, hxd, hxl⟩

/-- Claim C3 (amended): the listing enumerates the entries of the project
root and returns exactly the projects whose entry is a directory with a
readable descriptor, silently skipping entries whose descriptor is missing —
provided no descriptor is corrupted.  (A corrupted descriptor instead makes
the whole listing fail with 500; see the counterexample.) -/
theorem get_projects_skips_missing (fs : FS)
    (hroot : fs.isDir PROJECTS_DIR = true)
    (h : ∀ n ∈ fs.listdir PROJECTS_DIR,
      ∃ r, load_project_metadata fs n = .ok r) :
    ∃ l, get_projects fs = .ok 200 l ∧
      ∀ m, m ∈ l ↔ ∃ n ∈ fs.listdir PROJECTS_DIR,
        fs.isDir (get_project_path n) = true ∧
        load_project_metadata fs n = .ok (some m) := by
  obtain ⟨l, hl, hmem⟩ := gatherProjects_total fs _ h
  refine ⟨l, ?_, hmem⟩
  have hex : fs.pathExists PROJECTS_DIR = true := by
    simp [FS.pathExists, hroot]
  simp [get_projects, hex, hroot, hl]

/-- Witness for the amended C3: a root with one complete and one stale
project lists successfully. -/
theorem get_projects_skips_missing_witness :
    ∃ l, get_projects listFS = .ok 200 l ∧
      ∀ m, m ∈ l ↔ ∃ n ∈ listFS.listdir PROJECTS_DIR,
        listFS.isDir (get_project_path n) = true ∧
        load_project_metadata listFS n = .ok (some m) :=
  get_projects_skips_missing listFS (by decide) (by
    intro n hn
    have hls : listFS.listdir PROJECTS_DIR = ["p1", "stale"] := by decide
    rw [hls] at hn
    rcases List.mem_cons.mp hn with rfl | hn
    · exact ⟨some demoMeta, rfl⟩
    · rcases List.mem_cons.mp hn with rfl | hn
      · exact ⟨none, rfl⟩
      · exact absurd hn (List.not_mem_nil _))

/-! ### C1 -/

/-- Claim C1: for every successful project creation (any non-empty name, any
template), fetching the project by the returned identifier succeeds and
returns a descriptor equal to the one returned by creation — the metadata
written by save is read back unchanged by load. -/
theorem create_then_get_roundtrip (fs fs' : FS) (nowMs : Nat) (nowIso : String)
    (name template : Option String) (m : Metadata)
    (h : create_project fs nowMs nowIso name template = (.ok 201 m, fs')) :
    get_project fs' m.id = .ok 200 m := by
  simp only [create_project] at h
  split at h
  · simp at h
  · split at h
    · simp at h
    · split at h
      · simp at h
      · split at h
        · simp at h
        · next fs3 hsave =>
          simp only [Prod.mk.injEq, Result.ok.injEq] at h
          obtain ⟨⟨-, hm⟩, hfs⟩ := h
          subst hm
          subst hfs
          have hload := load_after_save _ _ _ _ hsave
          simp [get_project, hload]

/-- Witness for C1 on a concrete creation. -/
theorem create_then_get_roundtrip_witness :
    get_project
      (create_project ⟨["projects"], []⟩ 17 "T0" (some "Demo") (some "basic")).2
      "17" =
      .ok 200 ⟨"17", "Demo", "basic",
        [⟨"Main.java", "src/Main.java", "", "java"⟩], ["src"], "T0"⟩ :=
  create_then_get_roundtrip ⟨["projects"], []⟩
    (create_project ⟨["projects"], []⟩ 17 "T0" (some "Demo") (some "basic")).2
    17 "T0" (some "Demo") (some "basic")
    ⟨"17", "Demo", "basic", [⟨"Main.java", "src/Main.java", "", "java"⟩],
      ["src"], "T0"⟩ (by decide)

/-! ### C7 -/

theorem mem_filter_path_ne (l : List FileInfo) (p : String) :
    ∀ fi ∈ l.filter (fun f => f.path ≠ p), fi.path ≠ p := by
  intro fi hfi
  simpa using List.of_mem_filter hfi

theorem pathExists_eq_false (fs : FS) (p : String) (h1 : fs.isDir p = false)
    (h2 : fs.lookupFile p = none) : fs.pathExists p = false := by
  simp [FS.pathExists, FS.isFile, h1, h2]

theorem get_file_404_of_not_exists (fs : FS) (project_id file_path : String)
    (h : fs.pathExists (pathJoin (get_project_path project_id) file_path)
      = false) :
    get_file fs project_id file_path = .err 404 "File not found" := by
  simp [get_file, h]

/-- Claim C7: after a successful deleteFile, reading the same path fails with
NotFoundError, and the file list of the next successful getProject contains
no entry with that path — all matching entries are dropped, duplicates
included. -/
theorem delete_file_removes_everywhere (fs fs' : FS)
    (project_id file_path msg : String)
    (h : delete_file fs project_id file_path = (.ok 200 msg, fs')) :
    get_file fs' project_id file_path = .err 404 "File not found" ∧
    (∀ m', get_project fs' project_id = .ok 200 m' →
      ∀ fi ∈ m'.files, fi.path ≠ file_path) := by
  simp only [delete_file] at h
  split at h
  · simp at h
  · split at h
    · simp at h
    · next hdirT =>
      have hdir : fs.isDir (pathJoin (get_project_path project_id) file_path)
          = false := by
        simpa using hdirT
      split at h
      · simp at h
      · next heq =>
        simp only [Prod.mk.injEq, Result.ok.injEq] at h
        obtain ⟨-, hfs⟩ := h
        subst hfs
        constructor
        · exact get_file_404_of_not_exists _ _ _
            (pathExists_eq_false _ _ hdir (lookup_removeFile_self _ _))
        · intro m' hm'
          simp [get_project, heq] at hm'
      · next m heq =>
        split at h
        · simp at h
        · next fs2 hsave =>
          simp only [Prod.mk.injEq, Result.ok.injEq] at h
          obtain ⟨-, hfs⟩ := h
          subst hfs
          obtain ⟨hmd1, hml1⟩ := load_some_inv _ _ _ heq
          have hne : descriptorPath project_id ≠
              pathJoin (get_project_path project_id) file_path := by
            intro hE
            rw [hE, lookup_removeFile_self] at hml1
            cases hml1
          obtain ⟨hfs2, -⟩ := save_ok_inv _ _ _ _ hsave
          subst hfs2
          constructor
          · exact get_file_404_of_not_exists _ _ _
              (pathExists_eq_false _ _ hdir
                ((lookup_writeFile_ne _ _ _ _ (fun hc => hne hc.symm)).trans
                  (lookup_removeFile_self _ _)))
          · intro m'' hm''
            have hload := load_after_save _ _ _ _ hsave
            simp only [get_project, hload, Result.ok.injEq] at hm''
            obtain ⟨-, hm''⟩ := hm''
            subst hm''
            exact mem_filter_path_ne _ _

/-- Witness for C7: deleting `src/a.txt` from `dupFS` (which tracks it
twice) makes a subsequent read 404 and drops both descriptor entries. -/
theorem delete_file_removes_everywhere_witness :
    get_file (delete_file dupFS "p1" "src/a.txt").2 "p1" "src/a.txt" =
      .err 404 "File not found" :=
  (delete_file_removes_everywhere dupFS (delete_file dupFS "p1" "src/a.txt").2
    "p1" "src/a.txt" "File deleted successfully" (by decide)).1

/-! ### C6 -/

theorem isDir_writeFile (fs : FS) (p q : String) (c : Content) :
    (fs.writeFile p c).isDir q = fs.isDir q := rfl

theorem updateFirstContent_no_match (l : List FileInfo) (p c : String)
    (h : ∀ g ∈ l, g.path ≠ p) : updateFirstContent l p c = l := by
  induction l with
  | nil => rfl
  | cons fi l ih =>
    have h1 : fi.path ≠ p := h fi (by simp)
    simp [updateFirstContent, h1, ih (fun g hg => h g (by simp [hg]))]

theorem updateFirstContent_first_match (pre post : List FileInfo)
    (fi : FileInfo) (c : String) (hpre : ∀ g ∈ pre, g.path ≠ fi.path) :
    updateFirstContent (pre ++ fi :: post) fi.path c =
      pre ++ { fi with content := c } :: post := by
  induction pre with
  | nil => simp [updateFirstContent]
  | cons g pre ih =>
    have h1 : g.path ≠ fi.path := hpre g (by simp)
    simp [updateFirstContent, h1, ih (fun g' hg' => hpre g' (by simp [hg']))]

/-- Counterexample to C6 as stated: `project.json` is itself an existing
file of the project, and updating it overwrites the descriptor with plain
text, so the subsequent metadata reload raises and the call reports a 500 —
even though the disk write stands.  The claim's "the call still returns
success" therefore does not hold for every existing file. -/
theorem update_file_descriptor_counterexample :
    update_file demoFS "p1" "project.json" (some "junk") =
      (.err 500 "JSONDecodeError",
       demoFS.writeFile "projects/p1/project.json" (.text "junk")) := by
  decide

/-- Forward run of `update_file` on an existing file when the descriptor is
present: the disk is overwritten first, then the descriptor is rewritten
with the file list transformed by `updateFirstContent`. -/
theorem update_file_present_run (fs : FS) (project_id file_path c : String)
    (ct : Content) (m : Metadata)
    (hfile : fs.lookupFile (pathJoin (get_project_path project_id) file_path)
      = some ct)
    (hdir : fs.isDir (pathJoin (get_project_path project_id) file_path)
      = false)
    (hne : pathJoin (get_project_path project_id) file_path ≠
      descriptorPath project_id)
    (hmd : fs.isDir (descriptorPath project_id) = false)
    (hm : fs.lookupFile (descriptorPath project_id) = some (.jsonMeta m)) :
    update_file fs project_id file_path (some c) =
      (.ok 200 "File updated successfully",
       (fs.writeFile (pathJoin (get_project_path project_id) file_path)
         (.text c)).writeFile (descriptorPath project_id)
         (.jsonMeta { m with
           files := updateFirstContent m.files file_path c })) := by
  have hex : fs.pathExists
      (pathJoin (get_project_path project_id) file_path) = true := by
    simp [FS.pathExists, FS.isFile, hfile]
  have hlw := lookup_writeFile_ne fs
    (pathJoin (get_project_path project_id) file_path)
    (descriptorPath project_id) (.text c) (fun hc => hne hc.symm)
  simp [update_file, hex, FS.writeText, FS.writeContent, hdir, FS.isFile,
    hfile, load_project_metadata, isDir_writeFile, hmd, hlw, hm,
    save_project_metadata]

/-- Forward run of `update_file` on an existing file when the descriptor is
absent: the call still succeeds; only the disk write happens. -/
theorem update_file_absent_run (fs : FS) (project_id file_path c : String)
    (ct : Content)
    (hfile : fs.lookupFile (pathJoin (get_project_path project_id) file_path)
      = some ct)
    (hdir : fs.isDir (pathJoin (get_project_path project_id) file_path)
      = false)
    (hne : pathJoin (get_project_path project_id) file_path ≠
      descriptorPath project_id)
    (hmd : fs.isDir (descriptorPath project_id) = false)
    (hm : fs.lookupFile (descriptorPath project_id) = none) :
    update_file fs project_id file_path (some c) =
      (.ok 200 "File updated successfully",
       fs.writeFile (pathJoin (get_project_path project_id) file_path)
         (.text c)) := by
  have hex : fs.pathExists
      (pathJoin (get_project_path project_id) file_path) = true := by
    simp [FS.pathExists, FS.isFile, hfile]
  have hlw := lookup_writeFile_ne fs
    (pathJoin (get_project_path project_id) file_path)
    (descriptorPath project_id) (.text c) (fun hc => hne hc.symm)
  simp [update_file, hex, FS.writeText, FS.writeContent, hdir, FS.isFile,
    hfile, load_project_metadata, isDir_writeFile, hmd, hlw, hm]

/-- Claim C6: updating an existing file overwrites the on-disk content and
then updates the cached content of only the first descriptor entry whose
path matches exactly; when no entry matches, or the descriptor is absent,
the call still returns success and the disk write stands. -/
theorem update_file_disk_and_first_match :
    (∀ (fs : FS) (project_id file_path c : String) (ct : Content)
       (m : Metadata) (pre post : List FileInfo) (fi : FileInfo),
      fs.lookupFile (pathJoin (get_project_path project_id) file_path)
        = some ct →
      fs.isDir (pathJoin (get_project_path project_id) file_path) = false →
      pathJoin (get_project_path project_id) file_path ≠
        descriptorPath project_id →
      fs.isDir (descriptorPath project_id) = false →
      fs.lookupFile (descriptorPath project_id) = some (.jsonMeta m) →
      m.files = pre ++ fi :: post → fi.path = file_path →
      (∀ g ∈ pre, g.path ≠ file_path) →
      update_file fs project_id file_path (some c) =
        (.ok 200 "File updated successfully",
         (fs.writeFile (pathJoin (get_project_path project_id) file_path)
           (.text c)).writeFile (descriptorPath project_id)
           (.jsonMeta { m with
             files := pre ++ { fi with content := c } :: post })) ∧
      ((fs.writeFile (pathJoin (get_project_path project_id) file_path)
         (.text c)).writeFile (descriptorPath project_id)
         (.jsonMeta { m with
           files := pre ++ { fi with content := c } :: post })).lookupFile
         (pathJoin (get_project_path project_id) file_path)
        = some (.text c)) ∧
    (∀ (fs : FS) (project_id file_path c : String) (ct : Content)
       (m : Metadata),
      fs.lookupFile (pathJoin (get_project_path project_id) file_path)
        = some ct →
      fs.isDir (pathJoin (get_project_path project_id) file_path) = false →
      pathJoin (get_project_path project_id) file_path ≠
        descriptorPath project_id →
      fs.isDir (descriptorPath project_id) = false →
      fs.lookupFile (descriptorPath project_id) = some (.jsonMeta m) →
      (∀ g ∈ m.files, g.path ≠ file_path) →
      update_file fs project_id file_path (some c) =
        (.ok 200 "File updated successfully",
         (fs.writeFile (pathJoin (get_project_path project_id) file_path)
           (.text c)).writeFile (descriptorPath project_id)
           (.jsonMeta m))) ∧
    (∀ (fs : FS) (project_id file_path c : String) (ct : Content),
      fs.lookupFile (pathJoin (get_project_path project_id) file_path)
        = some ct →
      fs.isDir (pathJoin (get_project_path project_id) file_path) = false →
      pathJoin (get_project_path project_id) file_path ≠
        descriptorPath project_id →
      fs.isDir (descriptorPath project_id) = false →
      fs.lookupFile (descriptorPath project_id) = none →
      update_file fs project_id file_path (some c) =
        (.ok 200 "File updated successfully",
         fs.writeFile (pathJoin (get_project_path project_id) file_path)
           (.text c)) ∧
      (fs.writeFile (pathJoin (get_project_path project_id) file_path)
        (.text c)).lookupFile (descriptorPath project_id) = none) := by
  refine ⟨?_, ?_, ?_⟩
  · intro fs project_id file_path c ct m pre post fi hfile hdir hne hmd hm
      hsplit hpath hpre
    have hrun := update_file_present_run fs project_id file_path c ct m
      hfile hdir hne hmd hm
    have hupd : updateFirstContent m.files file_path c =
        pre ++ { fi with content := c } :: post := by
      rw [hsplit, ← hpath]
      exact updateFirstContent_first_match pre post fi c
        (fun g hg => hpath ▸ hpre g hg)
    rw [hupd] at hrun
    refine ⟨hrun, ?_⟩
    rw [lookup_writeFile_ne _ _ _ _ hne, lookup_writeFile_self]
  · intro fs project_id file_path c ct m hfile hdir hne hmd hm hnom
    have hrun := update_file_present_run fs project_id file_path c ct m
      hfile hdir hne hmd hm
    rw [updateFirstContent_no_match m.files file_path c hnom] at hrun
    exact hrun
  · intro fs project_id file_path c ct hfile hdir hne hmd hm
    refine ⟨update_file_absent_run fs project_id file_path c ct
      hfile hdir hne hmd hm, ?_⟩
    rw [lookup_writeFile_ne _ _ _ _ (fun hc => hne hc.symm)]
    exact hm

/-- Witness for C6 on concrete runs: a first-match update on `dupFS` (only
the first of the two entries with the path changes), a no-match update on
`untrackedFS`, and an absent-descriptor update on `orphanFS`. -/
theorem update_file_disk_and_first_match_witness :
    (update_file dupFS "p1" "src/a.txt" (some "new") =
      (.ok 200 "File updated successfully",
       (dupFS.writeFile "projects/p1/src/a.txt" (.text "new")).writeFile
         "projects/p1/project.json"
         (.jsonMeta { dupMeta with files :=
           [⟨"a.txt", "src/a.txt", "new", "txt"⟩,
            ⟨"dup", "src/a.txt", "x", "txt"⟩] }))) ∧
    (update_file untrackedFS "p1" "src/b.txt" (some "new") =
      (.ok 200 "File updated successfully",
       (untrackedFS.writeFile "projects/p1/src/b.txt" (.text "new")).writeFile
         "projects/p1/project.json" (.jsonMeta demoMeta))) ∧
    (update_file orphanFS "p2" "notes.txt" (some "new") =
      (.ok 200 "File updated successfully",
       orphanFS.writeFile "projects/p2/notes.txt" (.text "new"))) :=
  ⟨(update_file_disk_and_first_match.1 dupFS "p1" "src/a.txt" "new"
      (.text "hello") dupMeta [] [⟨"dup", "src/a.txt", "x", "txt"⟩]
      ⟨"a.txt", "src/a.txt", "hello", "txt"⟩ (by decide) (by decide)
      (by decide) (by decide) (by decide) (by decide) (by decide)
      (by decide)).1,
   update_file_disk_and_first_match.2.1 untrackedFS "p1" "src/b.txt" "new"
     (.text "b") demoMeta (by decide) (by decide) (by decide) (by decide)
     (by decide) (by decide),
   (update_file_disk_and_first_match.2.2 orphanFS "p2" "notes.txt" "new"
     (.text "n") (by decide) (by decide) (by decide) (by decide)
     (by decide)).1⟩

/-! ### C4 -/

/-- Claim C4: a successful creation with template `basic` yields a project
whose file list is exactly one entry with path `src/Main.java` and empty
content, and whose folder list contains `src`. -/
theorem create_project_basic_scaffold (fs fs' : FS) (nowMs : Nat)
    (nowIso : String) (name : Option String) (m : Metadata)
    (h : create_project fs nowMs nowIso name (some "basic") = (.ok 201 m, fs')) :
    m.files = [⟨"Main.java", "src/Main.java", "", "java"⟩] ∧
    "src" ∈ m.folders := by
  simp only [create_project, Option.getD_some] at h
  split at h
  · simp at h
  · split at h
    · simp at h
    · split at h
      · simp at h
      · next fs2 files folders hsc =>
        split at h
        · simp at h
        · simp only [Prod.mk.injEq, Result.ok.injEq] at h
          obtain ⟨⟨-, hm⟩, -⟩ := h
          subst hm
          simp only [scaffoldTemplate, ite_true] at hsc
          split at hsc
          · simp at hsc
          · split at hsc
            · simp at hsc
            · simp only [Except.ok.injEq, Prod.mk.injEq] at hsc
              obtain ⟨-, hfiles, hfolders⟩ := hsc
              subst hfiles
              subst hfolders
              exact ⟨rfl, by simp⟩

/-- Witness for C4 on a concrete creation. -/
theorem create_project_basic_scaffold_witness :
    (⟨"17", "Demo", "basic", [⟨"Main.java", "src/Main.java", "", "java"⟩],
      ["src"], "T0"⟩ : Metadata).files =
      [⟨"Main.java", "src/Main.java", "", "java"⟩] ∧
    "src" ∈ (⟨"17", "Demo", "basic",
      [⟨"Main.java", "src/Main.java", "", "java"⟩],
      ["src"], "T0"⟩ : Metadata).folders :=
  create_project_basic_scaffold ⟨["projects"], []⟩
    (create_project ⟨["projects"], []⟩ 17 "T0" (some "Demo") (some "basic")).2
    17 "T0" (some "Demo")
    ⟨"17", "Demo", "basic", [⟨"Main.java", "src/Main.java", "", "java"⟩],
      ["src"], "T0"⟩ (by decide)

/-! ### C8 -/

/-- Modelled from the spec: "type (derived from the file extension, or `txt`
if none)" and "a pure function of the file name's extension" — the substring
of the file NAME after its last `.`, or `txt` when the name has no `.`. -/
def specFileType (file_name : String) : String :=
  if file_name.toList.contains '.' then
    ((file_name.toList.reverse.takeWhile (fun ch => ch ≠ '.')).reverse).asString
  else "txt"

theorem splitOnChar_ne_nil (c : Char) (l : List Char) :
    splitOnChar c l ≠ [] := by
  cases l with
  | nil => simp [splitOnChar]
  | cons x xs =>
    simp only [splitOnChar]
    cases splitOnChar c xs with
    | nil => simp
    | cons r rs => by_cases h : x = c <;> simp [h]

theorem exists_splitOnChar_cons (c : Char) (l : List Char) :
    ∃ r rs, splitOnChar c l = r :: rs := by
  cases hh : splitOnChar c l with
  | nil => exact absurd hh (splitOnChar_ne_nil c l)
  | cons r rs => exact ⟨r, rs, rfl⟩

theorem splitOnChar_tail_nil_iff (c : Char) :
    ∀ (l r : List Char) (rs : List (List Char)),
      splitOnChar c l = r :: rs → (rs = [] ↔ l.contains c = false) := by
  intro l
  induction l with
  | nil =>
    intro r rs h
    simp only [splitOnChar, List.cons.injEq] at h
    simp [h.2.symm]
  | cons x xs ih =>
    intro r rs h
    obtain ⟨r', rs', hsp⟩ := exists_splitOnChar_cons c xs
    simp only [splitOnChar, hsp] at h
    by_cases hx : x = c
    · rw [if_pos hx] at h
      injection h with h1 h2
      subst h2
      have hcx : (c == x) = true := by simp [hx]
      rw [List.contains_cons, hcx, Bool.true_or]
      constructor
      · intro hE
        exact absurd hE (by simp)
      · intro hf
        cases hf
    · rw [if_neg hx] at h
      injection h with h1 h2
      subst h2
      have hcx : (c == x) = false := by
        simp only [beq_eq_false_iff_ne, ne_eq]
        exact fun hE => hx hE.symm
      rw [ih r' rs' hsp, List.contains_cons, hcx, Bool.false_or]

theorem takeWhile_append_all {α : Type} (p : α → Bool) (A B : List α)
    (h : A.all p = true) : (A ++ B).takeWhile p = A ++ B.takeWhile p := by
  induction A with
  | nil => rfl
  | cons a A ih =>
    simp only [List.all_cons, Bool.and_eq_true] at h
    simp [List.takeWhile_cons, h.1, ih h.2]

theorem takeWhile_append_not_all {α : Type} (p : α → Bool) (A B : List α)
    (h : A.all p = false) : (A ++ B).takeWhile p = A.takeWhile p := by
  induction A with
  | nil => simp at h
  | cons a A ih =>
    by_cases ha : p a = true
    · simp only [List.all_cons, ha, Bool.true_and] at h
      simp [List.takeWhile_cons, ha, ih h]
    · have ha' : p a = false := by
        cases hpa : p a
        · rfl
        · exact absurd hpa ha
      simp [List.takeWhile_cons, ha']

theorem takeWhile_all {α : Type} (p : α → Bool) (A : List α)
    (h : A.all p = true) : A.takeWhile p = A := by
  induction A with
  | nil => rfl
  | cons a A ih =>
    simp only [List.all_cons, Bool.and_eq_true] at h
    simp [List.takeWhile_cons, h.1, ih h.2]

theorem getLastD_irrel {α : Type} (l : List α) (d₁ d₂ : α) (h : l ≠ []) :
    l.getLastD d₁ = l.getLastD d₂ := by
  cases l with
  | nil => exact absurd rfl h
  | cons a l => rfl

/-- The last piece of Python's `split` is the reversed longest separator-free
suffix: `l.split(c)[-1]` is exactly the part of `l` after the last `c`. -/
theorem getLastD_splitOnChar (c : Char) (l : List Char) :
    (splitOnChar c l).getLastD [] =
      (l.reverse.takeWhile (fun ch => ch ≠ c)).reverse := by
  induction l with
  | nil => rfl
  | cons x xs ih =>
    obtain ⟨r, rs, hsp⟩ := exists_splitOnChar_cons c xs
    rw [hsp] at ih
    simp only [splitOnChar, hsp]
    by_cases hx : x = c
    · rw [if_pos hx]
      rw [List.getLastD_cons, ih, List.reverse_cons]
      by_cases hall : xs.reverse.all (fun ch => decide (ch ≠ c)) = true
      · rw [takeWhile_append_all _ _ _ hall, takeWhile_all _ _ hall]
        simp [List.takeWhile_cons, hx]
      · have hall' : xs.reverse.all (fun ch => decide (ch ≠ c)) = false := by
          cases hA : xs.reverse.all (fun ch => decide (ch ≠ c))
          · rfl
          · exact absurd hA hall
        rw [takeWhile_append_not_all _ _ _ hall']
    · rw [if_neg hx]
      cases rs with
      | nil =>
        have hnoc : xs.contains c = false :=
          (splitOnChar_tail_nil_iff c xs r [] hsp).mp rfl
        have hall : xs.reverse.all (fun ch => decide (ch ≠ c)) = true := by
          rw [List.all_eq_true]
          intro y hy
          simp only [decide_eq_true_eq]
          intro hyc
          rw [hyc] at hy
          have hmem : c ∈ xs := List.mem_reverse.mp hy
          have helem : xs.elem c = true := List.elem_iff.mpr hmem
          rw [show xs.contains c = xs.elem c from rfl, helem] at hnoc
          cases hnoc
        have hr : r = xs := by
          rw [takeWhile_all _ _ hall, List.reverse_reverse] at ih
          simpa [List.getLastD] using ih
        subst hr
        rw [List.reverse_cons, takeWhile_append_all _ _ _ hall]
        simp [List.takeWhile_cons, hx, List.getLastD]
      | cons b rs' =>
        have hc : xs.contains c = true := by
          cases hcc : xs.contains c
          · exact absurd ((splitOnChar_tail_nil_iff c xs r (b :: rs')
              hsp).mpr hcc) (by simp)
          · rfl
        have hall : xs.reverse.all (fun ch => decide (ch ≠ c)) = false := by
          have hmem : c ∈ xs := by
            have : xs.elem c = true := hc
            exact List.elem_iff.mp this
          cases hA : xs.reverse.all (fun ch => decide (ch ≠ c))
          · rfl
          · have := List.all_eq_true.mp hA c (List.mem_reverse.mpr hmem)
            simp at this
        calc ((x :: r) :: b :: rs').getLastD [] = (b :: rs').getLastD (x :: r) := rfl
          _ = (b :: rs').getLastD r := getLastD_irrel _ _ _ (by simp)
          _ = (r :: b :: rs').getLastD [] := rfl
          _ = (xs.reverse.takeWhile (fun ch => ch ≠ c)).reverse := ih
          _ = (((x :: xs).reverse).takeWhile (fun ch => ch ≠ c)).reverse := by
              rw [List.reverse_cons, takeWhile_append_not_all _ _ _ hall]

/-- The code's extension function agrees with the spec's description on
every file name. -/
theorem fileTypeOf_eq_specFileType (file_name : String) :
    fileTypeOf file_name = specFileType file_name := by
  unfold fileTypeOf specFileType
  by_cases h : file_name.toList.contains '.' = true
  · rw [if_pos h, if_pos h, getLastD_splitOnChar]
  · rw [if_neg h, if_neg h]

/-- Claim C8: the `type` field of a file returned by a successful createFile
is a pure function of the file NAME — the substring after the last `.` when
the name contains one (so a name ending in `.` yields the empty type), and
`txt` when it contains none; the path plays no role. -/
theorem create_file_type_pure_function (fs fs' : FS) (project_id : String)
    (file_name : String) (path content : Option String) (fi : FileInfo)
    (h : create_file fs project_id (some file_name) path content =
      (.ok 201 fi, fs')) :
    fi.type = specFileType file_name := by
  simp only [create_file] at h
  split at h
  · simp at h
  · split at h
    · simp at h
    · simp at h
    · split at h
      · simp at h
      · split at h
        · simp at h
        · split at h
          · simp at h
          · simp only [Prod.mk.injEq, Result.ok.injEq] at h
            obtain ⟨⟨-, hfi⟩, -⟩ := h
            subst hfi
            exact fileTypeOf_eq_specFileType file_name

/-- Witness for C8: a name ending in a dot yields the empty type. -/
theorem create_file_type_pure_function_witness :
    (⟨"x.", "src/x.", "", ""⟩ : FileInfo).type = specFileType "x." :=
  create_file_type_pure_function demoFS
    (create_file demoFS "p1" (some "x.") (some "src/x.") none).2 "p1" "x."
    (some "src/x.") none ⟨"x.", "src/x.", "", ""⟩ (by decide)

/-! ### C10 -/

/-- Claim C10: every successful descriptor-rewriting operation (createFile,
updateFile, deleteFile, createFolder) leaves the project's id, name,
template and createdAt fields unchanged; only the files list (and for
createFolder the folders list) is modified.  Each conclusion exhibits the
final descriptor as the initial one with only that list replaced. -/
theorem descriptor_rewrite_frame :
    (∀ (fs fs' : FS) (project_id : String) (name path content : Option String)
       (fi : FileInfo) (m : Metadata),
      fs.lookupFile (descriptorPath project_id) = some (.jsonMeta m) →
      create_file fs project_id name path content = (.ok 201 fi, fs') →
      fs'.lookupFile (descriptorPath project_id) =
        some (.jsonMeta { m with files := m.files ++ [fi] })) ∧
    (∀ (fs fs' : FS) (project_id file_path msg : String)
       (content : Option String) (m : Metadata),
      fs.lookupFile (descriptorPath project_id) = some (.jsonMeta m) →
      update_file fs project_id file_path content = (.ok 200 msg, fs') →
      fs'.lookupFile (descriptorPath project_id) =
        some (.jsonMeta { m with
          files := updateFirstContent m.files file_path (content.getD "") })) ∧
    (∀ (fs fs' : FS) (project_id file_path msg : String) (m : Metadata),
      fs.lookupFile (descriptorPath project_id) = some (.jsonMeta m) →
      pathJoin (get_project_path project_id) file_path ≠
        descriptorPath project_id →
      delete_file fs project_id file_path = (.ok 200 msg, fs') →
      fs'.lookupFile (descriptorPath project_id) =
        some (.jsonMeta { m with
          files := m.files.filter (fun f => f.path ≠ file_path) })) ∧
    (∀ (fs fs' : FS) (project_id : String) (name : Option String)
       (fname : String) (m : Metadata),
      fs.lookupFile (descriptorPath project_id) = some (.jsonMeta m) →
      create_folder fs project_id name = (.ok 201 fname, fs') →
      fs'.lookupFile (descriptorPath project_id) = some (.jsonMeta m) ∨
      fs'.lookupFile (descriptorPath project_id) =
        some (.jsonMeta { m with
          folders := m.folders ++ [name.getD ""] })) := by
  refine ⟨?_, ?_, ?_, ?_⟩
  · intro fs fs' project_id name path content fi m hm h
    simp only [create_file] at h
    split at h
    · simp at h
    · split at h
      · simp at h
      · simp at h
      · next m0 heq =>
        obtain ⟨-, hml⟩ := load_some_inv _ _ _ heq
        rw [hm] at hml
        simp only [Option.some.injEq, Content.jsonMeta.injEq] at hml
        subst hml
        split at h
        · simp at h
        · split at h
          · simp at h
          · split at h
            · simp at h
            · next fs3 hsave =>
              simp only [Prod.mk.injEq, Result.ok.injEq] at h
              obtain ⟨⟨-, hfi⟩, hfs⟩ := h
              subst hfi
              subst hfs
              obtain ⟨hfs3, -⟩ := save_ok_inv _ _ _ _ hsave
              subst hfs3
              exact lookup_writeFile_self _ _ _
  · intro fs fs' project_id file_path msg content m hm h
    simp only [update_file] at h
    split at h
    · simp at h
    · split at h
      · simp at h
      · next fs1 hwr =>
        obtain ⟨hfs1, hdirfull⟩ := writeContent_ok_inv _ _ _ _ hwr
        subst hfs1
        split at h
        · simp at h
        · next heq =>
          exfalso
          have hnone := load_none_inv _ _ heq
          by_cases hfm : pathJoin (get_project_path project_id) file_path =
              descriptorPath project_id
          · rw [hfm, lookup_writeFile_self] at hnone
            cases hnone
          · rw [lookup_writeFile_ne _ _ _ _ (fun hc => hfm hc.symm), hm]
              at hnone
            cases hnone
        · next m2 heq =>
          obtain ⟨-, hml⟩ := load_some_inv _ _ _ heq
          have hfm : pathJoin (get_project_path project_id) file_path ≠
              descriptorPath project_id := by
            intro hE
            rw [hE, lookup_writeFile_self] at hml
            cases hml
          rw [lookup_writeFile_ne _ _ _ _ (fun hc => hfm hc.symm), hm] at hml
          simp only [Option.some.injEq, Content.jsonMeta.injEq] at hml
          subst hml
          split at h
          · simp at h
          · next fs2 hsave =>
            simp only [Prod.mk.injEq, Result.ok.injEq] at h
            obtain ⟨-, hfs⟩ := h
            subst hfs
            obtain ⟨hfs2, -⟩ := save_ok_inv _ _ _ _ hsave
            subst hfs2
            exact lookup_writeFile_self _ _ _
  · intro fs fs' project_id file_path msg m hm hne h
    simp only [delete_file] at h
    split at h
    · simp at h
    · split at h
      · simp at h
      · split at h
        · simp at h
        · next heq =>
          exfalso
          have hnone := load_none_inv _ _ heq
          rw [lookup_removeFile_ne _ _ _ (fun hc => hne hc.symm), hm] at hnone
          cases hnone
        · next m2 heq =>
          obtain ⟨-, hml⟩ := load_some_inv _ _ _ heq
          rw [lookup_removeFile_ne _ _ _ (fun hc => hne hc.symm), hm] at hml
          simp only [Option.some.injEq, Content.jsonMeta.injEq] at hml
          subst hml
          split at h
          · simp at h
          · next fs2 hsave =>
            simp only [Prod.mk.injEq, Result.ok.injEq] at h
            obtain ⟨-, hfs⟩ := h
            subst hfs
            obtain ⟨hfs2, -⟩ := save_ok_inv _ _ _ _ hsave
            subst hfs2
            exact lookup_writeFile_self _ _ _
  · intro fs fs' project_id name fname m hm h
    simp only [create_folder] at h
    split at h
    · simp at h
    · split at h
      · simp at h
      · next heq =>
        exfalso
        have hnone := load_none_inv _ _ heq
        rw [hm] at hnone
        cases hnone
      · next m2 heq =>
        obtain ⟨-, hml⟩ := load_some_inv _ _ _ heq
        rw [hm] at hml
        simp only [Option.some.injEq, Content.jsonMeta.injEq] at hml
        subst hml
        split at h
        · simp at h
        · next fs1 hmk =>
          have hfiles := makedirs_ok_files _ _ _ hmk
          split at h
          · simp only [Prod.mk.injEq, Result.ok.injEq] at h
            obtain ⟨-, hfs⟩ := h
            subst hfs
            exact Or.inl ((lookupFile_congr_files _ _ _ hfiles).trans hm)
          · split at h
            · simp at h
            · next fs2 hsave =>
              simp only [Prod.mk.injEq, Result.ok.injEq] at h
              obtain ⟨-, hfs⟩ := h
              subst hfs
              obtain ⟨hfs2, -⟩ := save_ok_inv _ _ _ _ hsave
              subst hfs2
              exact Or.inr (lookup_writeFile_self _ _ _)

/-- Witness for C10: the four operations run on concrete states, and the
descriptor read back afterwards differs only in the stated list. -/
theorem descriptor_rewrite_frame_witness :
    ((create_file demoFS "p1" (some "a.txt") (some "src/a.txt")
        (some "hi")).2.lookupFile (descriptorPath "p1") =
      some (.jsonMeta { demoMeta with
        files := demoMeta.files ++ [⟨"a.txt", "src/a.txt", "hi", "txt"⟩] })) ∧
    ((update_file dupFS "p1" "src/a.txt" (some "n2")).2.lookupFile
        (descriptorPath "p1") =
      some (.jsonMeta { dupMeta with
        files := updateFirstContent dupMeta.files "src/a.txt" "n2" })) ∧
    ((delete_file dupFS "p1" "src/a.txt").2.lookupFile
        (descriptorPath "p1") =
      some (.jsonMeta { dupMeta with
        files := dupMeta.files.filter (fun f => f.path ≠ "src/a.txt") })) ∧
    ((create_folder demoFS "p1" (some "docs")).2.lookupFile
        (descriptorPath "p1") = some (.jsonMeta demoMeta) ∨
     (create_folder demoFS "p1" (some "docs")).2.lookupFile
        (descriptorPath "p1") =
      some (.jsonMeta { demoMeta with
        folders := demoMeta.folders ++ ["docs"] })) :=
  ⟨descriptor_rewrite_frame.1 demoFS
     (create_file demoFS "p1" (some "a.txt") (some "src/a.txt") (some "hi")).2
     "p1" (some "a.txt") (some "src/a.txt") (some "hi")
     ⟨"a.txt", "src/a.txt", "hi", "txt"⟩ demoMeta (by decide) (by decide),
   descriptor_rewrite_frame.2.1 dupFS
     (update_file dupFS "p1" "src/a.txt" (some "n2")).2 "p1" "src/a.txt"
     "File updated successfully" (some "n2") dupMeta (by decide) (by decide),
   descriptor_rewrite_frame.2.2.1 dupFS
     (delete_file dupFS "p1" "src/a.txt").2 "p1" "src/a.txt"
     "File deleted successfully" dupMeta (by decide) (by decide) (by decide),
   descriptor_rewrite_frame.2.2.2 demoFS
     (create_folder demoFS "p1" (some "docs")).2 "p1" (some "docs") "docs"
     demoMeta (by decide) (by decide)⟩

end AutoFixer
